import Mathlib

/-!
Shallow embedding of `src/option.ts` (the `Option<T>` container of oxide.ts).

JavaScript runtime values are modelled by `Oxide.JSVal`; strict equality
(`===`) by `Oxide.jsEq`; thrown exceptions by `Oxide.JsException` together
with `Except`.  The `OptionType` class is a structure holding the two
symbol-keyed fields `[Val]` and `[Is]` of the source.
-/

namespace Oxide

mutual

/-- Model of JavaScript runtime values.  Objects are identified by a
reference tag `id`; arrays are identified by their contents (each distinct
array literal in the scenarios below is created exactly once, so contents
determine the reference). -/
inductive JSVal : Type where
  | null
  | undef
  | nan
  | num (n : Int)
  | str (s : String)
  | bool (b : Bool)
  | obj (id : Nat)
  | arr (elems : JSList)
  deriving DecidableEq

/-- A JavaScript array of values (spine of `JSVal.arr`). -/
inductive JSList : Type where
  | nil
  | cons (head : JSVal) (tail : JSList)
  deriving DecidableEq

end

/-- JavaScript strict equality `===`: `NaN === NaN` is `false`; all other
values are compared by value (primitives) or reference (objects, see
`JSVal.obj` / `JSVal.arr`). -/
def jsEq (a b : JSVal) : Bool :=
  if a = JSVal.nan ∨ b = JSVal.nan then false else decide (a = b)

/-- Model of a thrown JavaScript exception: `new Error(msg)`, a `TypeError`
raised by the runtime, or an arbitrary thrown value. -/
inductive JsException : Type where
  | jsError (msg : String)
  | typeError (msg : String)
  | throwVal (v : JSVal)
  deriving DecidableEq

/-- Converts a Lean list of values into a `JSVal.arr` spine. -/
def JSList.ofList : List JSVal → JSList
  | [] => JSList.nil
  | v :: vs => JSList.cons v (JSList.ofList vs)

/-- The `OptionType<T>` class of `src/option.ts:14-22`: the constructor
`new OptionType(val, some)` stores `val` in the symbol field `[Val]` and
`some` in the symbol field `[Is]` (and freezes the instance; immutability
is intrinsic to the functional embedding). -/
structure OptionType : Type where
  Val : JSVal
  Is : Bool
  deriving DecidableEq

/-- A JavaScript value of static type `unknown`: either a plain runtime
value or an instance of `OptionType`. -/
inductive JSAny : Type where
  | val (v : JSVal)
  | opt (o : OptionType)
  deriving DecidableEq

/-- `Some(val)` of `src/option.ts:425-427`: `new OptionType(val, true)`. -/
def Some (val : JSVal) : OptionType := OptionType.mk val true

/-- `None` of `src/option.ts:439`: the single shared
`new OptionType(undefined as never, false)`. -/
def None : OptionType := OptionType.mk JSVal.undef false

/-- Method `is` of `src/option.ts:37-39`:
`cmp instanceof OptionType && this[Is] === cmp[Is]`.  A non-`OptionType`
argument (any plain value, including `null` and `undefined`) fails the
`instanceof` test, so the conjunction short-circuits to `false` without
touching `cmp[Is]`; no exception is possible. -/
def OptionType.is (o : OptionType) (cmp : JSAny) : Bool :=
  match cmp with
  | JSAny.opt p => o.Is == p.Is
  | JSAny.val _ => false

/-- Method `into` of `src/option.ts:52-54`: `this[Is] ? this[Val] : null`. -/
def OptionType.into (o : OptionType) : JSVal :=
  if o.Is then o.Val else JSVal.null

/-- Method `eq` of `src/option.ts:71-73` applied at its declared type
`eq(cmp: Option<T>)`: `this[Is] === cmp[Is] && this[Val] === cmp[Val]`. -/
def OptionType.eq (o cmp : OptionType) : Bool :=
  o.Is == cmp.Is && jsEq o.Val cmp.Val

/-- Method `neq` of `src/option.ts:90-92` at its declared type:
`this[Is] !== cmp[Is] || this[Val] !== cmp[Val]`. -/
def OptionType.neq (o cmp : OptionType) : Bool :=
  o.Is != cmp.Is || !jsEq o.Val cmp.Val

/-- Method `eq` of `src/option.ts:71-73` as invoked dynamically on an
arbitrary runtime argument.  The property read `cmp[Is]` throws a
`TypeError` when `cmp` is `null` or `undefined`; on any other
non-`OptionType` value the symbol-keyed property is absent, so `cmp[Is]`
is `undefined`, the boolean `this[Is]` is not `===` to it, and the
conjunction short-circuits to `false`. -/
def OptionType.eqDyn (o : OptionType) (cmp : JSAny) : Except JsException Bool :=
  match cmp with
  | JSAny.opt p => Except.ok (o.Is == p.Is && jsEq o.Val p.Val)
  | JSAny.val JSVal.null =>
      Except.error (JsException.typeError ("Cannot read properties of null"))
  | JSAny.val JSVal.undef =>
      Except.error (JsException.typeError ("Cannot read properties of undefined"))
  | JSAny.val _ => Except.ok false

/-- Method `neq` of `src/option.ts:90-92` as invoked dynamically, see
`OptionType.eqDyn`.  On a non-`OptionType`, non-nullish value the first
disjunct `this[Is] !== undefined` is `true` and the disjunction
short-circuits to `true`. -/
def OptionType.neqDyn (o : OptionType) (cmp : JSAny) : Except JsException Bool :=
  match cmp with
  | JSAny.opt p => Except.ok (o.Is != p.Is || !jsEq o.Val p.Val)
  | JSAny.val JSVal.null =>
      Except.error (JsException.typeError ("Cannot read properties of null"))
  | JSAny.val JSVal.undef =>
      Except.error (JsException.typeError ("Cannot read properties of undefined"))
  | JSAny.val _ => Except.ok true

/-- Method `isSome` of `src/option.ts:106-108`: `this[Is]`. -/
def OptionType.isSome (o : OptionType) : Bool := o.Is

/-- Method `isNone` of `src/option.ts:122-124`: `!this[Is]`. -/
def OptionType.isNone (o : OptionType) : Bool := !o.Is

/-- Method `expect` of `src/option.ts:140-146`: returns `this[Val]` if
`Some`, otherwise `throw new Error(msg)`. -/
def OptionType.expect (o : OptionType) (msg : String) : Except JsException JSVal :=
  if o.Is then Except.ok o.Val else Except.error (JsException.jsError msg)

/-- Method `unwrap` of `src/option.ts:163-165`:
`this.expect("Failed to unwrap Option (found None)")`. -/
def OptionType.unwrap (o : OptionType) : Except JsException JSVal :=
  o.expect ("Failed to unwrap Option (found None)")

/-- Method `unwrapOr` of `src/option.ts:181-183`:
`this[Is] ? this[Val] : def`. -/
def OptionType.unwrapOr (o : OptionType) (d : JSVal) : JSVal :=
  if o.Is then o.Val else d

/-- Method `unwrapOrElse` of `src/option.ts:196-198` with a pure callback:
`this[Is] ? this[Val] : f()`. -/
def OptionType.unwrapOrElse (o : OptionType) (f : Unit → JSVal) : JSVal :=
  if o.Is then o.Val else f ()

/-- Method `unwrapUnchecked` of `src/option.ts:214-216`: `this[Val]`. -/
def OptionType.unwrapUnchecked (o : OptionType) : JSVal := o.Val

/-- Method `or` of `src/option.ts:234-236`: `this[Is] ? this : optb`. -/
def OptionType.or (o optb : OptionType) : OptionType :=
  if o.Is then o else optb

/-- Method `orElse` of `src/option.ts:251-253` with a pure callback:
`this[Is] ? this : f()`. -/
def OptionType.orElse (o : OptionType) (f : Unit → OptionType) : OptionType :=
  if o.Is then o else f ()

/-- Method `and` of `src/option.ts:272-274`: `this[Is] ? optb : None`. -/
def OptionType.and (o optb : OptionType) : OptionType :=
  if o.Is then optb else None

/-- Method `andThen` of `src/option.ts:294-296` with a pure callback:
`this[Is] ? f(this[Val]) : None`. -/
def OptionType.andThen (o : OptionType) (f : JSVal → OptionType) : OptionType :=
  if o.Is then f o.Val else None

/-- Method `map` of `src/option.ts:308-310`:
`this[Is] ? new OptionType(f(this[Val]), true) : None`. -/
def OptionType.map (o : OptionType) (f : JSVal → JSVal) : OptionType :=
  if o.Is then OptionType.mk (f o.Val) true else None

/-- Method `mapOr` of `src/option.ts:329-331`:
`this[Is] ? f(this[Val]) : def`. -/
def OptionType.mapOr (o : OptionType) (d : JSVal) (f : JSVal → JSVal) : JSVal :=
  if o.Is then f o.Val else d

/-- Method `mapOrElse` of `src/option.ts:346-348`:
`this[Is] ? f(this[Val]) : def()`. -/
def OptionType.mapOrElse (o : OptionType) (d : Unit → JSVal) (f : JSVal → JSVal) : JSVal :=
  if o.Is then f o.Val else d ()

/-- Method `andThen` of `src/option.ts:294-296` with an effectful callback:
side effects of the callback (call counting, allocation, mutation) are
modelled by explicit state passing through a state type `S`.  The source
is unchanged: `this[Is] ? f(this[Val]) : None`; when the option is `None`
the callback is never entered and the state `s` flows through untouched. -/
def OptionType.andThenS {S : Type} (o : OptionType)
    (f : JSVal → S → OptionType × S) (s : S) : OptionType × S :=
  if o.Is then f o.Val s else (None, s)

/-- Method `orElse` of `src/option.ts:251-253` with an effectful callback,
see `OptionType.andThenS`: `this[Is] ? this : f()`. -/
def OptionType.orElseS {S : Type} (o : OptionType)
    (f : S → OptionType × S) (s : S) : OptionType × S :=
  if o.Is then (o, s) else f s

/-- Method `unwrapOrElse` of `src/option.ts:196-198` with an effectful
callback, see `OptionType.andThenS`: `this[Is] ? this[Val] : f()`. -/
def OptionType.unwrapOrElseS {S : Type} (o : OptionType)
    (f : S → JSVal × S) (s : S) : JSVal × S :=
  if o.Is then (o.Val, s) else f s

/-- Free function `from` of `src/option.ts:460-464` (named `from'` because
`from` is a Lean keyword):
`val === undefined || val === null || val !== val ? None : Some(val)`.
The self-inequality test `val !== val` is rendered as `jsEq v v = false`. -/
def from' (v : JSVal) : OptionType :=
  if v = JSVal.undef ∨ v = JSVal.null ∨ jsEq v v = false then None else Some v

/-- The callable type constructor `Option(val)` of `src/option.ts:411-413`:
`return from(val)`. -/
def OptionCall (v : JSVal) : OptionType := from' v

/-- Free function `safe` of `src/option.ts:521-537`, synchronous overload:
`try { return Some(fn(...args)) } catch (err) { return None }`.  The
possibly-throwing JavaScript function `fn` is modelled as returning
`Except JsException JSVal`; the `Promise` overload (line 525-529) is
asynchronous and outside this embedding. -/
def safe (fn : List JSVal → Except JsException JSVal) (args : List JSVal) :
    OptionType :=
  match fn args with
  | Except.ok v => Some v
  | Except.error _ => None

/-- The loop of free function `all`, `src/option.ts:562-568`: walks the
arguments in order, pushing `option.unwrapUnchecked()` onto the local
array `some` (here the accumulator `acc`), and returns `None` from inside
the loop as soon as an argument is not `Some`. -/
def allLoop : List OptionType → List JSVal → OptionType
  | [], acc => Some (JSVal.arr (JSList.ofList acc))
  | o :: rest, acc =>
      if o.isSome then allLoop rest (acc ++ [o.unwrapUnchecked]) else None

/-- Free function `all` of `src/option.ts:560-571`: runs the loop starting
from the empty array (`const some = []`) and, when the loop completes,
returns `Some(some)`. -/
def all (options : List OptionType) : OptionType := allLoop options []

/-- Free function `any` of `src/option.ts:590-599`: walks the arguments in
order and returns the first one satisfying `isSome()` itself (`return
option;`), or `None` once all are exhausted. -/
def any : List OptionType → OptionType
  | [] => None
  | o :: rest => if o.isSome then o else any rest

/-- The `mightThrow` example from the source documentation of `safe`
(`src/option.ts:480-485`): throws `Error("Throw")` when called with
`true`, otherwise returns the string "Hello World". -/
def mightThrow : List JSVal → Except JsException JSVal
  | [JSVal.bool true] => Except.error (JsException.jsError ("Throw"))
  | _ => Except.ok (JSVal.str ("Hello World"))

/-- A value is strictly equal (`===`) to itself exactly when it is not
`NaN`. -/
theorem jsEq_self (v : JSVal) (h : v ≠ JSVal.nan) : jsEq v v = true := by
  simp [jsEq, h]

/-- Helper for `all`: when every option in the remaining list is `Some`,
the loop finishes and wraps the accumulator followed by the payloads in
order. -/
theorem allLoop_some (opts : List OptionType) (acc : List JSVal)
    (h : ∀ o ∈ opts, o.Is = true) :
    allLoop opts acc =
      Some (JSVal.arr (JSList.ofList (acc ++ opts.map OptionType.Val))) := by
  induction opts generalizing acc with
  | nil => simp [allLoop]
  | cons o rest ih =>
      have ho : o.Is = true := h o (by simp)
      have hr : ∀ q ∈ rest, q.Is = true := fun q hq => h q (by simp [hq])
      simp [allLoop, OptionType.isSome, ho, OptionType.unwrapUnchecked, ih _ hr]

/-- Helper for `all`: the first non-`Some` argument makes the loop return
`None`, whatever comes after it. -/
theorem allLoop_none (pre : List OptionType) (o : OptionType)
    (post : List OptionType) (acc : List JSVal)
    (hpre : ∀ p ∈ pre, p.Is = true) (ho : o.Is = false) :
    allLoop (pre ++ o :: post) acc = None := by
  induction pre generalizing acc with
  | nil => simp [allLoop, OptionType.isSome, ho]
  | cons p rest ih =>
      have hp : p.Is = true := hpre p (by simp)
      have hr : ∀ q ∈ rest, q.Is = true := fun q hq => hpre q (by simp [hq])
      simp [allLoop, OptionType.isSome, hp]
      exact ih _ hr

/-- Claim C1: `expect(msg)` returns the payload on `Some` and throws
`Error(msg)` on `None`; `unwrap()` returns the payload on `Some` and
throws `Error` with the fixed default message on `None`; on every
receiver either operation can only return normally or throw an `Error`
(`JsException.jsError`), never any other exception kind. -/
theorem expect_unwrap_spec (v : JSVal) (msg : String) :
    (Some v).expect msg = Except.ok v ∧
    None.expect msg = Except.error (JsException.jsError msg) ∧
    (Some v).unwrap = Except.ok v ∧
    None.unwrap =
      Except.error (JsException.jsError ("Failed to unwrap Option (found None)")) ∧
    (∀ o : OptionType, ∀ m : String,
      (∃ w, o.expect m = Except.ok w) ∨
      (∃ s, o.expect m = Except.error (JsException.jsError s))) ∧
    (∀ o : OptionType,
      (∃ w, o.unwrap = Except.ok w) ∨
      (∃ s, o.unwrap = Except.error (JsException.jsError s))) := by
  refine ⟨rfl, rfl, rfl, rfl, ?_, ?_⟩
  · intro o m
    by_cases h : o.Is
    · exact Or.inl ⟨o.Val, by simp [OptionType.expect, h]⟩
    · exact Or.inr ⟨m, by simp [OptionType.expect, h]⟩
  · intro o
    by_cases h : o.Is
    · exact Or.inl ⟨o.Val, by simp [OptionType.unwrap, OptionType.expect, h]⟩
    · exact Or.inr ⟨"Failed to unwrap Option (found None)",
        by simp [OptionType.unwrap, OptionType.expect, h]⟩

/-- Claim C2 counterexample: invoking `eq` with argument `null` does not
return `false`; the property read `cmp[Is]` throws a `TypeError`, so `eq`
is not total on arbitrary argument values. -/
theorem eq_null_typeError_cex :
    (Some (JSVal.num 1)).eqDyn (JSAny.val JSVal.null) =
      Except.error (JsException.typeError ("Cannot read properties of null")) := rfl

/-- Claim C2 (amended): every public Option operation except `expect` and
`unwrap` is total, except that `eq` and `neq` throw a `TypeError` when
their argument is `null` or `undefined`; `is` never throws and returns
`false` on every non-Option argument, and `eq` returns `false` (`neq`
returns `true`) on every other non-Option argument. -/
theorem guard_totality_amended (o p : OptionType) (v : JSVal) :
    o.is (JSAny.val v) = false ∧
    o.is (JSAny.opt p) = (o.Is == p.Is) ∧
    o.eqDyn (JSAny.opt p) = Except.ok (o.eq p) ∧
    o.neqDyn (JSAny.opt p) = Except.ok (o.neq p) ∧
    o.eqDyn (JSAny.val v) =
      (if v = JSVal.null then
        Except.error (JsException.typeError ("Cannot read properties of null"))
       else if v = JSVal.undef then
        Except.error (JsException.typeError ("Cannot read properties of undefined"))
       else Except.ok false) ∧
    o.neqDyn (JSAny.val v) =
      (if v = JSVal.null then
        Except.error (JsException.typeError ("Cannot read properties of null"))
       else if v = JSVal.undef then
        Except.error (JsException.typeError ("Cannot read properties of undefined"))
       else Except.ok true) := by
  refine ⟨rfl, rfl, rfl, rfl, ?_, ?_⟩ <;> cases v <;> rfl

/-- Claim C3: `Option.from(v)` and the callable `Option(v)` return `None`
exactly when `v` is `null`, `undefined` or `NaN` (self-inequality under
`===`), and `Some(v)` for every other value, falsy values included. -/
theorem from_absence_spec (v : JSVal) :
    OptionCall v = from' v ∧
    from' v =
      (if v = JSVal.null ∨ v = JSVal.undef ∨ v = JSVal.nan then None else Some v) ∧
    (from' v = None ↔ (v = JSVal.null ∨ v = JSVal.undef ∨ v = JSVal.nan)) := by
  have key : from' v =
      (if v = JSVal.null ∨ v = JSVal.undef ∨ v = JSVal.nan then None else Some v) := by
    by_cases hn : v = JSVal.nan
    · subst hn; rfl
    · by_cases h1 : v = JSVal.null
      · subst h1; rfl
      · by_cases h2 : v = JSVal.undef
        · subst h2; rfl
        · simp [from', h1, h2, hn, jsEq_self v hn]
  refine ⟨rfl, key, ?_⟩
  rw [key]
  by_cases habs : v = JSVal.null ∨ v = JSVal.undef ∨ v = JSVal.nan
  · simp [habs]
  · simp only [habs, if_false]
    constructor
    · intro hcontra
      exact absurd (congrArg OptionType.Is hcontra) (by simp [Some, None])
    · intro hc; exact hc.elim

/-- Claim C4 counterexample: the map identity law fails at `Some(NaN)`:
`Some(NaN).map(v => v)` is `Some(NaN)` again, but `eq` compares payloads
with `===` and `NaN === NaN` is `false`. -/
theorem map_identity_nan_cex :
    ((Some JSVal.nan).map (fun x => x)).eq (Some JSVal.nan) = false := rfl

/-- Claim C4 (amended): `x.map(v => v)` is equal under `eq` to `x` for
every Option `x` whose payload is not `NaN`; the discriminant is always
preserved and the payload of the image is the very payload of `x`. -/
theorem map_identity_amended (v : JSVal) (h : v ≠ JSVal.nan) :
    ((Some v).map (fun x => x)).eq (Some v) = true ∧
    (None.map (fun x => x)).eq None = true := by
  refine ⟨?_, rfl⟩
  simp [OptionType.map, OptionType.eq, Some, jsEq_self v h]

/-- Claim C4 witness: the amended identity law at the concrete payload 5. -/
theorem map_identity_amended_witness :
    ((Some (JSVal.num 5)).map (fun x => x)).eq (Some (JSVal.num 5)) = true ∧
    (None.map (fun x => x)).eq None = true :=
  map_identity_amended (JSVal.num 5) (by decide)

/-- Claim C5 counterexample: the map composition law fails under `eq` when
the composed result is `NaN`: both sides are `Some(NaN)`, yet `eq` is
`false` because `NaN === NaN` is `false`. -/
theorem map_composition_nan_cex :
    (((Some (JSVal.num 1)).map (fun x => x)).map (fun _ => JSVal.nan)).eq
      ((Some (JSVal.num 1)).map (fun v => (fun _ => JSVal.nan) ((fun x => x) v))) =
      false := rfl

/-- Claim C5 (amended): for every Option `x` and deterministic functions
`f` and `g` (in JavaScript terms: functions returning the identical
(`===`) result on each invocation at the same argument),
`x.map(f).map(g)` is equal under `eq` to `x.map(v => g(f(v)))` provided
the composed payload `g(f(v))` is not `NaN`; for a `NaN` composed payload,
or for functions allocating a fresh object per call, `eq` is `false`. -/
theorem map_composition_amended (x : OptionType) (f g : JSVal → JSVal)
    (h : x.Is = true → g (f x.Val) ≠ JSVal.nan) :
    ((x.map f).map g).eq (x.map fun v => g (f v)) = true := by
  by_cases hx : x.Is = true
  · have hz := jsEq_self _ (h hx)
    simp [OptionType.map, hx, OptionType.eq, hz]
  · have hx' : x.Is = false := by simpa using hx
    simp [OptionType.map, hx', OptionType.eq, None, jsEq]

/-- Claim C5 witness: the amended composition law at `Some(2)` with two
identity functions. -/
theorem map_composition_amended_witness :
    (((Some (JSVal.num 2)).map (fun x => x)).map (fun x => x)).eq
      ((Some (JSVal.num 2)).map (fun v => (fun x => x) ((fun x => x) v))) = true :=
  map_composition_amended (Some (JSVal.num 2)) (fun x => x) (fun x => x)
    (fun _ => by decide)

/-- Claim C6: `Option.all` inspects its arguments in order; as soon as one
argument is not `Some` the result is `None`, independently of every later
argument (the tail `post` is universally quantified on both sides of
nothing: the result is the constant `None` for every tail); when every
argument is `Some`, the result wraps the array of all payloads in
argument order. -/
theorem all_spec (opts pre post : List OptionType) (o : OptionType) :
    ((∀ q ∈ opts, q.Is = true) →
      all opts = Some (JSVal.arr (JSList.ofList (opts.map OptionType.Val)))) ∧
    ((∀ p ∈ pre, p.Is = true) → o.Is = false →
      all (pre ++ o :: post) = None) := by
  constructor
  · intro h
    simpa using allLoop_some opts [] h
  · intro h1 h2
    exact allLoop_none pre o post [] h1 h2

/-- Claim C6 witness: `all` on three `Some` values wraps the payload
array; `all` with a `None` in second position is `None` (whatever the
tail holds). -/
theorem all_spec_witness :
    all [Some (JSVal.num 20), Some (JSVal.num 30), Some (JSVal.num 40)] =
      Some (JSVal.arr (JSList.ofList
        ([Some (JSVal.num 20), Some (JSVal.num 30), Some (JSVal.num 40)].map
          OptionType.Val))) ∧
    all ([Some (JSVal.num 20)] ++ None :: [Some (JSVal.num 40)]) = None :=
  ⟨(all_spec [Some (JSVal.num 20), Some (JSVal.num 30), Some (JSVal.num 40)]
      [] [] None).1 (by decide),
   (all_spec [] [Some (JSVal.num 20)] [Some (JSVal.num 40)] None).2
      (by decide) (by decide)⟩

/-- Claim C7: `Option.any` inspects its arguments in order and returns
the first `Some` argument itself (in this value-level embedding, returning
the container verbatim is returning a result equal, as a whole structure,
to that very list element); when no argument is `Some` it returns `None`. -/
theorem any_spec (pre post opts : List OptionType) (o : OptionType) :
    ((∀ p ∈ pre, p.Is = false) → o.Is = true → any (pre ++ o :: post) = o) ∧
    ((∀ q ∈ opts, q.Is = false) → any opts = None) := by
  constructor
  · intro hpre ho
    induction pre with
    | nil => simp [any, OptionType.isSome, ho]
    | cons p rest ih =>
        have hp : p.Is = false := hpre p (by simp)
        simp [any, OptionType.isSome, hp]
        exact ih (fun q hq => hpre q (by simp [hq]))
  · intro h
    induction opts with
    | nil => rfl
    | cons q rest ih =>
        have hq : q.Is = false := h q (by simp)
        simp [any, OptionType.isSome, hq]
        exact ih (fun r hr => h r (by simp [hr]))

/-- Claim C7 witness: the spec scenario `any(num(5), num(20), num(2))`,
that is `any(None, Some(20), None)`, returns the element `Some(20)`
itself; `any(None, None, None)` returns `None`. -/
theorem any_spec_witness :
    any ([None] ++ Some (JSVal.num 20) :: [None]) = Some (JSVal.num 20) ∧
    any [None, None, None] = None :=
  ⟨(any_spec [None] [None] [] (Some (JSVal.num 20))).1 (by decide) (by decide),
   (any_spec [] [] [None, None, None] None).2 (by decide)⟩

/-- Claim C8: the synchronous `Option.safe(fn, ...args)` calls `fn` with
`args`; when `fn` returns normally the result is `Some` of the returned
value, and when `fn` throws (any exception whatsoever) the result is
`None`: the thrown value never propagates. -/
theorem safe_spec (fn : List JSVal → Except JsException JSVal)
    (args : List JSVal) :
    (∀ v, fn args = Except.ok v → safe fn args = Some v) ∧
    (∀ e, fn args = Except.error e → safe fn args = None) := by
  constructor
  · intro v h; simp [safe, h]
  · intro e h; simp [safe, h]

/-- Claim C8 witness: for the documented `mightThrow` example,
`safe(mightThrow, true)` is `None` and `safe(mightThrow, false)` is
`Some("Hello World")`. -/
theorem safe_spec_witness :
    safe mightThrow [JSVal.bool true] = None ∧
    safe mightThrow [JSVal.bool false] = Some (JSVal.str ("Hello World")) :=
  ⟨(safe_spec mightThrow [JSVal.bool true]).2 (JsException.jsError ("Throw")) rfl,
   (safe_spec mightThrow [JSVal.bool false]).1 (JSVal.str ("Hello World")) rfl⟩

/-- Claim C9: the short-circuit branches of the `*Else` combinators never
consult the callback: with effects modelled by explicit state passing,
`None.andThen(f)` is `None` with the state untouched (so `f` is never
invoked and the result is the same for every `f`), `Some(v).orElse(f)` is
the receiver with the state untouched, and `Some(v).unwrapOrElse(f)` is
`v` with the state untouched. -/
theorem lazy_short_circuit {S : Type} (f : JSVal → S → OptionType × S)
    (g : S → OptionType × S) (k : S → JSVal × S) (s : S) (v : JSVal) :
    None.andThenS f s = (None, s) ∧
    (Some v).orElseS g s = (Some v, s) ∧
    (Some v).unwrapOrElseS k s = (v, s) :=
  ⟨rfl, rfl, rfl⟩

/-- Claim C10: aggregation over the empty argument list is asymmetric:
`Option.all()` is `Some` of the empty array, while `Option.any()` is
`None`. -/
theorem empty_all_any :
    all [] = Some (JSVal.arr JSList.nil) ∧
    (all []).isSome = true ∧
    any [] = None ∧
    (any []).isSome = false :=
  ⟨rfl, rfl, rfl, rfl⟩

end Oxide
